import Mathlib

set_option maxRecDepth 40000

/-!
Shallow embedding of the hybrid recommendation scoring and ranking engine of
`src/ai-service/models/recommendation_model.py` (class `RecommendationModel`),
together with theorems settling the frozen claims about it.

External collaborators (the sentence-transformer embedder, the optional spaCy
lemmatizer inside `_enhanced_preprocess_text`, and cosine similarity over the
precomputed embedding matrix) are out of scope per the specification; they are
modelled as parameters: `pp : String → String` stands for
`_enhanced_preprocess_text` and `semantic_scores : List ℚ` for the cosine
similarity row produced from the query embedding (one value per catalog row).
Everything downstream of those capabilities — keyword scoring, feature
extraction, boosting, quality/price weighting, score combination and
normalization, sorting, and the diversity-constrained selection walk of
`get_recommendations` — is embedded directly from the source.
-/

/-- Python `str.strip`-style removal of leading whitespace from a char list. -/
def dropWS : List Char → List Char
  | [] => []
  | c :: cs => if c.isWhitespace then dropWS cs else c :: cs

/-- Models Python `s.strip()`: whitespace removed from both ends. -/
def pyStrip (s : String) : String :=
  String.mk (((dropWS s.data).reverse |> dropWS).reverse)

/-- Helper for `wordsOf`: splits a char list on whitespace runs, dropping
empty pieces, with an accumulator holding the current (reversed) word.
Models Python `str.split()` with no arguments. -/
def splitWSAux : List Char → List Char → List (List Char)
  | [], acc => if acc.isEmpty then [] else [acc.reverse]
  | c :: cs, acc =>
    if c.isWhitespace then
      if acc.isEmpty then splitWSAux cs [] else acc.reverse :: splitWSAux cs []
    else splitWSAux cs (c :: acc)

/-- Models Python `s.split()`: the whitespace-delimited tokens of `s`. -/
def wordsOf (s : String) : List String :=
  (splitWSAux s.data []).map String.mk

/-- Models Python `set(s.split())`: the token list of `s` with duplicates
removed (the source only uses the set through membership, intersection and
union cardinalities, for which a deduplicated list is a faithful model). -/
def wordSet (s : String) : List String :=
  (wordsOf s).dedup

/-- `leadsWith pat l` is true when `pat` is an initial segment of `l`. -/
def leadsWith : List Char → List Char → Bool
  | [], _ => true
  | _ :: _, [] => false
  | a :: as, b :: bs => a == b && leadsWith as bs

/-- `hasSub pat l` is true when `pat` occurs contiguously inside `l`. -/
def hasSub (pat : List Char) : List Char → Bool
  | [] => pat.isEmpty
  | c :: cs => leadsWith pat (c :: cs) || hasSub pat cs

/-- Models the Python substring test `pat in s`. -/
def strContains (s pat : String) : Bool :=
  hasSub pat.data s.data

/-- Models Python 3 `round(x)`: round half to even (banker's rounding). -/
def pythonRound (x : ℚ) : ℤ :=
  if x - ⌊x⌋ < 1/2 then ⌊x⌋
  else if 1/2 < x - ⌊x⌋ then ⌊x⌋ + 1
  else if ⌊x⌋ % 2 = 0 then ⌊x⌋ else ⌊x⌋ + 1

/-- Models Python `round(x, 3)` on the exact rational value of `x`. -/
def round3 (x : ℚ) : ℚ :=
  (pythonRound (x * 1000) : ℚ) / 1000

/-- Models `np.ndarray.max()` over the values of a list; `0` on the empty
list (numpy raises there — that path is only reachable with an empty catalog,
where every score list in the pipeline is empty and the value is unused). -/
def listMax : List ℚ → ℚ
  | [] => 0
  | x :: xs => xs.foldl max x

/-- One row of `self.configs` after `_clean_and_enhance_data`: the cleaned
catalog columns used by scoring and selection.  `prix_jour` is the column
computed by `_calculate_enhanced_prix`, which returns Python ints on every
in-repository data path (sums of integer price-table entries, or `int(...)`
fallbacks), so it is modelled as `ℤ`. -/
structure Config where
  type : String
  budget : String
  lieu : String
  camera : String
  objectif : String
  lumieres : String
  prix_jour : ℤ
  deriving DecidableEq

/-- The `(row['type'], row['budget'], row['lieu'])` combination key used by
the selection walk of `get_recommendations`. -/
abbrev ComboKey := String × String × String

/-- `_calculate_complexity`: equipment complexity score derived from the
equipment name columns (the `complexity_score` column added by
`_add_enhanced_features`). -/
def calculate_complexity (row : Config) : ℤ :=
  1 + (if strContains row.camera "FX6" || strContains row.camera "C70" then 2
       else if strContains row.camera "R6" || strContains row.camera "A7III" then 1
       else 0)
    + (if strContains row.objectif "L" || strContains row.objectif "2.8" then 1 else 0)
    + (if strContains row.lumieres "Aputure" || strContains row.lumieres "Arri" then 1 else 0)

/-- The `budget_tier` column added by `_add_enhanced_features`:
`{'low': 1, 'medium': 2, 'high': 3}` with `fillna(2)`. -/
def budgetTierOf (b : String) : ℚ :=
  if b = "low" then 1 else if b = "medium" then 2 else if b = "high" then 3 else 2

/-- The `self.SYNONYMS` table, in Python dict insertion order.  The source
dict literal assigns the key `'reportage'` twice (`'interview'` then
`'documentaire'`); Python keeps the first position with the last value, so
the entry here is `('reportage', 'documentaire')`. -/
def SYNONYMS : List (String × String) :=
  [("faible", "low"), ("bas", "low"), ("petit", "low"), ("économique", "low"),
   ("pas cher", "low"), ("budget serré", "low"), ("limité", "low"),
   ("moyen", "medium"), ("standard", "medium"), ("normal", "medium"), ("correct", "medium"),
   ("élevé", "high"), ("fort", "high"), ("grand", "high"), ("cher", "high"),
   ("premium", "high"), ("luxe", "high"), ("haut de gamme", "high"),
   ("extérieur", "extérieur"), ("ext", "extérieur"), ("dehors", "extérieur"),
   ("plein air", "extérieur"), ("outdoor", "extérieur"), ("nature", "extérieur"),
   ("intérieur", "intérieur"), ("int", "intérieur"), ("dedans", "intérieur"),
   ("indoor", "intérieur"), ("maison", "intérieur"),
   ("studio", "studio"), ("atelier", "studio"), ("salle", "studio"),
   ("publicité", "pub"), ("pub", "pub"), ("commercial", "pub"), ("marketing", "pub"),
   ("entretien", "interview"), ("interview", "interview"),
   ("reportage", "documentaire"),
   ("docu", "documentaire"), ("documentaire", "documentaire"),
   ("court", "court-métrage"), ("métrage", "court-métrage"),
   ("court-métrage", "court-métrage"), ("film", "court-métrage"),
   ("cinéma", "court-métrage"),
   ("clip", "clip"), ("musical", "clip"), ("musique", "clip"),
   ("vidéo musicale", "clip"),
   ("camera", "caméra"), ("appareil", "caméra"), ("boitier", "caméra"),
   ("objectif", "objectif"), ("lens", "objectif"), ("optique", "objectif"),
   ("lumière", "lumières"), ("éclairage", "lumières"), ("flash", "lumières"),
   ("son", "audio"), ("micro", "audio"), ("microphone", "audio")]

/-- The `budget_patterns` dict of `_extract_enhanced_features`, in insertion
order (`low`, then `medium`, then `high`). -/
def BUDGET_PATTERNS : List (String × List String) :=
  [("low", ["low", "faible", "petit", "économique", "pas cher", "serré"]),
   ("medium", ["medium", "moyen", "normal", "standard", "correct"]),
   ("high", ["high", "élevé", "grand", "cher", "premium", "luxe", "haut"])]

/-- The `LIEU_VALUES` set of `_extract_enhanced_features`.  Python iterates a
`set` in an unspecified order; this list fixes the literal's order, which only
matters when several locations match at once (not exercised by any claim). -/
def LIEU_VALUES : List String :=
  ["intérieur", "extérieur", "studio"]

/-- The `features` dict produced by `_extract_enhanced_features`. -/
structure Features where
  budget : Option String
  lieu : Option String
  type : Option String
  specificity_score : ℕ
  deriving DecidableEq

/-- Budget detection of `_extract_enhanced_features`: the first pattern
group with a substring hit in the processed query (`break` after a match). -/
def budgetOf (processed_query : String) : Option String :=
  (BUDGET_PATTERNS.find? (fun p => p.2.any (fun pat => strContains processed_query pat))).map
    Prod.fst

/-- Location detection of `_extract_enhanced_features`: a location value that
is a query token itself or via any synonym mapping to it. -/
def lieuOf (words : List String) : Option String :=
  LIEU_VALUES.find? (fun l => words.contains l
    || SYNONYMS.any (fun sp => sp.2 == l && words.contains sp.1))

/-- Exact project-type detection of `_extract_enhanced_features`: the first
known catalog type present among the query tokens. -/
def typeExactOf (typeValues : List String) (words : List String) : Option String :=
  typeValues.find? (fun t => words.contains t)

/-- The type step of `_extract_enhanced_features`: the exact match when
present, else the context-based fallback inference (`mariage/wedding/photo`
implies `pub`, `entretien/reportage` implies `interview`). -/
def ptypeOf (exactType : Option String) (weddingHit interviewHit : Bool) :
    Option String :=
  match exactType with
  | some t => some t
  | none =>
    if weddingHit then some "pub"
    else if interviewHit then some "interview"
    else none

/-- The specificity contribution of the type step of
`_extract_enhanced_features`: +2 on an exact match, +1 on a context-based
fallback inference, 0 otherwise. -/
def typeSpecOf (exactType : Option String) (weddingHit interviewHit : Bool) : ℕ :=
  match exactType with
  | some _ => 2
  | none => if weddingHit then 1 else if interviewHit then 1 else 0

/-- `_extract_enhanced_features`: structured features of a query.  The source
first preprocesses its argument, then accumulates `specificity_score`:
+1 for a budget match, +1 for a location match, and either +2 for an exact
type match or +1 for a context-based fallback type inference.  `TYPE_VALUES`
(`set(self.configs['type'].unique())`) is modelled as the deduplicated type
column in catalog order (Python set iteration order is unspecified). -/
def extract_enhanced_features (pp : String → String) (configs : List Config)
    (query : String) : Features :=
  let processed_query := pp query
  let words := wordSet processed_query
  let typeValues := (configs.map Config.type).dedup
  let budget := budgetOf processed_query
  let lieu := lieuOf words
  let exactType := typeExactOf typeValues words
  let weddingHit := (["mariage", "wedding", "photo"].any
    (fun w => strContains processed_query w))
  let interviewHit := (["entretien", "reportage"].any
    (fun w => strContains processed_query w))
  { budget := budget, lieu := lieu,
    type := ptypeOf exactType weddingHit interviewHit,
    specificity_score :=
      (if budget.isSome then 1 else 0) + (if lieu.isSome then 1 else 0)
        + typeSpecOf exactType weddingHit interviewHit }

/-- Step 3 of `_calculate_enhanced_scores` (feature-based boosting): start
from a vector of ones and, for each extracted feature that is set, add
`boost_strength = 0.3 + 0.1 * specificity_score` to every row whose
corresponding column equals the extracted value (the three vectorized
`boosts += boost_strength * match` statements, applied pointwise). -/
def compute_boosts (extracted : Features) (configs : List Config) : List ℚ :=
  let boost_strength : ℚ := 3/10 + (extracted.specificity_score : ℚ) * (1/10)
  configs.map (fun row =>
    1 + (match extracted.type with
         | some t => if row.type = t then boost_strength else 0
         | none => 0)
      + (match extracted.budget with
         | some b => if row.budget = b then boost_strength else 0
         | none => 0)
      + (match extracted.lieu with
         | some l => if row.lieu = l then boost_strength else 0
         | none => 0))

/-- Step 2 of `_calculate_enhanced_scores` for one catalog row: Jaccard
similarity of the query and config token sets plus `0.1` per exact query-token
hit in the config token set. -/
def keyword_score (query_words config_words : List String) : ℚ :=
  let intersection := (query_words.filter (fun w => config_words.contains w)).length
  let union := (query_words ++ config_words.filter
    (fun w => !query_words.contains w)).length
  let exact_matches := (query_words.filter (fun w => config_words.contains w)).length
  let jaccard : ℚ := if 0 < union then (intersection : ℚ) / (union : ℚ) else 0
  jaccard + (exact_matches : ℚ) * (1/10)

/-- Steps 2–6 of `_calculate_enhanced_scores` before normalization: keyword
scores, feature boosts, equipment-quality weighting
(`complexity / max complexity`), price-appropriateness weighting, and the
combination `(0.4*semantic + 0.3*keyword) * boost * (1 + 0.2*quality) *
(0.8 + 0.2*price)`, one value per catalog row. -/
def raw_scores (pp : String → String) (semantic_scores : List ℚ)
    (configs : List Config) (processed_query : String) : List ℚ :=
  let query_words := wordSet processed_query
  let keyword_scores := configs.map (fun row =>
    keyword_score query_words
      (wordSet (pp (row.type ++ " " ++ row.budget ++ " " ++ row.lieu))))
  let extracted := extract_enhanced_features pp configs processed_query
  let boosts := compute_boosts extracted configs
  let maxComplexity := listMax (configs.map (fun r => (calculate_complexity r : ℚ)))
  let quality_scores := configs.map
    (fun r => (calculate_complexity r : ℚ) / maxComplexity)
  let price_scores :=
    match extracted.budget with
    | some b =>
      let queryTier := budgetTierOf b
      configs.map (fun r => 1 - |budgetTierOf r.budget - queryTier| / 3)
    | none => List.replicate configs.length 1
  let base_scores := List.zipWith
    (fun s k => s * (4/10) + k * (3/10)) semantic_scores keyword_scores
  let withBoost := List.zipWith (fun b bo => b * bo) base_scores boosts
  let withQuality := List.zipWith
    (fun f q => f * (1 + q * (2/10))) withBoost quality_scores
  List.zipWith (fun f p => f * ((8/10) + p * (2/10))) withQuality price_scores

/-- The final normalization step of `_calculate_enhanced_scores`: divide by
the batch maximum when it is positive, otherwise leave the values unchanged. -/
def normalize_scores (l : List ℚ) : List ℚ :=
  if 0 < listMax l then l.map (fun x => x / listMax l) else l

/-- `_calculate_enhanced_scores` on its non-exception path: zero scores when
the query preprocesses to the empty string, otherwise the normalized combined
scores.  (The feature extraction inside receives the already-processed query,
exactly as in the source, which preprocesses it a second time.) -/
def calculate_enhanced_scores (pp : String → String) (semantic_scores : List ℚ)
    (configs : List Config) (query : String) : List ℚ :=
  let processed_query := pp query
  if processed_query = "" then List.replicate configs.length 0
  else normalize_scores (raw_scores pp semantic_scores configs processed_query)

/-- The comparison underlying `similarities.argsort()`: ascending by score,
with ascending index as tiebreak.  numpy's default (introsort) argsort makes
NO promise about the relative order of tied values, so the ascending-index
tiebreak here is a determinization of the model, not a property of the
program: no general theorem below depends on it (the sortedness theorem for
the walk only asserts the score-descending order, which holds under every
tie resolution), and the concrete runs that are evaluated exactly are either
tie-free or two-element arrays, the regime in which numpy's insertion-sort
path verifiably orders tied values by ascending index. -/
def argLe (sims : List ℚ) (i j : ℕ) : Bool :=
  decide (sims.getD i 0 < sims.getD j 0 ∨ (sims.getD i 0 = sims.getD j 0 ∧ i ≤ j))

/-- Insert an index into an already-sorted index list (insertion sort step). -/
def insertIdx (le : ℕ → ℕ → Bool) (i : ℕ) : List ℕ → List ℕ
  | [] => [i]
  | j :: js => if le i j then i :: j :: js else j :: insertIdx le i js

/-- Insertion sort on index lists; stable, used to model `argsort`. -/
def insSort (le : ℕ → ℕ → Bool) : List ℕ → List ℕ
  | [] => []
  | i :: is => insertIdx le i (insSort le is)

/-- `similarities.argsort()`: the indices `0 .. len-1` sorted ascending by
score (ties ascending by index). -/
def argsort (sims : List ℚ) : List ℕ :=
  insSort (argLe sims) (List.range sims.length)

/-- `top_indices = similarities.argsort()[::-1]` from `get_recommendations`. -/
def topIndices (sims : List ℚ) : List ℕ :=
  (argsort sims).reverse

/-- Field-wise equality count between two combination keys:
`sum(a == b for a, b in zip(combo_key, seen))`. -/
def sharedFields (a b : ComboKey) : ℕ :=
  (if a.1 = b.1 then 1 else 0) + (if a.2.1 = b.2.1 then 1 else 0)
    + (if a.2.2 = b.2.2 then 1 else 0)

/-- `combo_key = (row['type'], row['budget'], row['lieu'])`. -/
def comboKey (row : Config) : ComboKey :=
  (row.type, row.budget, row.lieu)

/-- The out-of-range default for `getCfg`; `self.configs.iloc[idx]` is only
ever called with in-range indices produced by `argsort`. -/
def defaultConfig : Config :=
  { type := "", budget := "", lieu := "", camera := "", objectif := "",
    lumieres := "", prix_jour := 0 }

/-- `row = self.configs.iloc[idx]`. -/
def getCfg (configs : List Config) (idx : ℕ) : Config :=
  configs.getD idx defaultConfig

/-- `_calculate_confidence`: confidence label from a score. -/
def calculate_confidence (score : ℚ) : String :=
  if 8/10 < score then "excellent"
  else if 6/10 < score then "very_good"
  else if 4/10 < score then "good"
  else if 2/10 < score then "fair"
  else "low"

/-- One entry of the `recommendations` list built by `get_recommendations`
(the `result` dict).  `prix_jour` and `prix_total` are the Python
`int(row['prix_jour'])` and `int(row['prix_jour'] * jours)`; with integer
per-day prices both casts are the identity. -/
structure Recommendation where
  type : String
  budget : String
  lieu : String
  camera : String
  objectif : String
  lumieres : String
  prix_jour : ℤ
  prix_total : ℤ
  duree : ℤ
  score : ℚ
  confidence : String
  complexity_score : ℤ
  quality_rating : ℤ
  deriving DecidableEq

/-- The `result` dict built for an accepted candidate in
`get_recommendations`. -/
def mkResult (row : Config) (sim : ℚ) (jours : ℤ) : Recommendation :=
  { type := row.type, budget := row.budget, lieu := row.lieu,
    camera := row.camera, objectif := row.objectif, lumieres := row.lumieres,
    prix_jour := row.prix_jour, prix_total := row.prix_jour * jours,
    duree := jours, score := round3 sim,
    confidence := calculate_confidence sim,
    complexity_score := calculate_complexity row,
    quality_rating := min 5 (pythonRound (sim * 5 + 1)) }

/-- One iteration of the `for idx in top_indices` walk of
`get_recommendations`, acting on the state `(results, seen_combinations)`.
The seen set is kept as a duplicate-free list; `seen_combinations.add` is
cons-if-new.  In the source the candidate's key is added to the seen set
after the diversity check but before the quality-threshold check, so a
candidate that clears diversity but fails quality still contributes its key.
The source's `if len(results) >= 5: break` is modelled by making every later
iteration a no-op, which is equivalent because the result count never
decreases. -/
def selectStep (configs : List Config) (sims : List ℚ) (jours : ℤ)
    (st : List Recommendation × List ComboKey) (idx : ℕ) :
    List Recommendation × List ComboKey :=
  if 5 ≤ st.1.length then st
  else
    let row := getCfg configs idx
    let key := comboKey row
    let similar_count := (st.2.filter (fun seen => 2 ≤ sharedFields key seen)).length
    if 2 ≤ similar_count then st
    else
      let seen1 := if key ∈ st.2 then st.2 else key :: st.2
      if sims.getD idx 0 < 15/100 then (st.1, seen1)
      else (st.1 ++ [mkResult row (sims.getD idx 0) jours], seen1)

/-- The full selection walk of `get_recommendations`, starting from empty
results and an empty seen set. -/
def runSelect (configs : List Config) (sims : List ℚ) (jours : ℤ)
    (idxs : List ℕ) : List Recommendation × List ComboKey :=
  idxs.foldl (selectStep configs sims jours) ([], [])

/-- The similarity vector used by `get_recommendations`: on the normal path
the output of `_calculate_enhanced_scores`; when the `try` body of that
method raises (`scoreErr = true`), its handler returns
`np.random.uniform(0.1, 0.3, len(self.configs))`, modelled as the first
`len(configs)` values of the ambient PRNG stream `rng`. -/
def pipelineSims (pp : String → String) (semantic_scores : List ℚ)
    (scoreErr : Bool) (rng : List ℚ) (configs : List Config)
    (query : String) : List ℚ :=
  if scoreErr then rng.take configs.length
  else calculate_enhanced_scores pp semantic_scores configs query

/-- The dict returned by `get_recommendations`.  The early "query too short"
return carries only `success`, `message` and `recommendations`; the other
keys are absent, modelled as `none`. -/
structure RecResult where
  success : Bool
  message : String
  recommendations : List Recommendation
  query : Option String := none
  duration_days : Option ℤ := none
  extracted_features : Option Features := none
  model_confidence : Option ℚ := none
  deriving DecidableEq

/-- `get_recommendations(user_query, jours)`: minimum-length guard, scoring,
descending sort, diversity-constrained selection, and the final response
dict (`success = len(results) > 0`, `model_confidence` the mean accepted
score or 0). -/
def get_recommendations (pp : String → String) (semantic_scores : List ℚ)
    (scoreErr : Bool) (rng : List ℚ) (configs : List Config)
    (user_query : String) (jours : ℤ) : RecResult :=
  if (pyStrip user_query).length < 3 then
    { success := false, message := "Query too short. Please be more specific.",
      recommendations := [] }
  else
    let similarities := pipelineSims pp semantic_scores scoreErr rng configs user_query
    let top_indices := topIndices similarities
    let results := (runSelect configs similarities jours top_indices).1
    let n := results.length
    { success := decide (0 < results.length),
      message := if 0 < results.length then
          s!"Found {n} high-quality recommendations"
        else "No close matches found",
      recommendations := results,
      query := some user_query,
      duration_days := some jours,
      extracted_features := some (extract_enhanced_features pp configs user_query),
      model_confidence := some (if 0 < results.length then
          (results.map Recommendation.score).sum / (results.length : ℚ)
        else 0) }

/-- Concrete catalog row used by the concrete-run theorems: type `pub`,
budget `low`, location `studio`, camera `a`. -/
def cfgA : Config :=
  { type := "pub", budget := "low", lieu := "studio", camera := "a",
    objectif := "o", lumieres := "l", prix_jour := 100 }

/-- Same combination key as `cfgA` but a different camera: an exact-duplicate
key candidate. -/
def cfgB : Config :=
  { type := "pub", budget := "low", lieu := "studio", camera := "b",
    objectif := "o", lumieres := "l", prix_jour := 200 }

/-- The initial accumulator is a lower bound of a `foldl max`. -/
theorem le_foldl_max (l : List ℚ) (a : ℚ) : a ≤ l.foldl max a := by
  induction l generalizing a with
  | nil => exact le_refl a
  | cons x xs ih =>
    rw [List.foldl_cons]
    exact le_trans (le_max_left a x) (ih (max a x))

/-- Every member of a list is bounded by a `foldl max` over it. -/
theorem mem_le_foldl_max (l : List ℚ) (a x : ℚ) (hx : x ∈ l) :
    x ≤ l.foldl max a := by
  induction l generalizing a with
  | nil => cases hx
  | cons y ys ih =>
    rw [List.foldl_cons]
    rcases List.mem_cons.mp hx with h | h
    · subst h
      exact le_trans (le_max_right a x) (le_foldl_max ys (max a x))
    · exact ih (max a y) h

/-- A `foldl max` is the accumulator or one of the list elements. -/
theorem foldl_max_mem (l : List ℚ) (a : ℚ) :
    l.foldl max a = a ∨ l.foldl max a ∈ l := by
  induction l generalizing a with
  | nil => exact Or.inl rfl
  | cons x xs ih =>
    rw [List.foldl_cons]
    rcases ih (max a x) with h | h
    · rcases max_choice a x with hm | hm
      · exact Or.inl (by rw [h, hm])
      · exact Or.inr (by rw [h, hm]; exact List.mem_cons_self x xs)
    · exact Or.inr (List.mem_cons_of_mem x h)

/-- Every list member is bounded by `listMax`. -/
theorem le_listMax {l : List ℚ} {x : ℚ} (hx : x ∈ l) : x ≤ listMax l := by
  cases l with
  | nil => cases hx
  | cons y ys =>
    simp only [listMax]
    rcases List.mem_cons.mp hx with h | h
    · subst h; exact le_foldl_max ys x
    · exact mem_le_foldl_max ys y x h

/-- On a nonempty list, `listMax` is attained. -/
theorem listMax_mem {l : List ℚ} (h : l ≠ []) : listMax l ∈ l := by
  cases l with
  | nil => exact absurd rfl h
  | cons y ys =>
    simp only [listMax]
    rcases foldl_max_mem ys y with h1 | h1
    · rw [h1]; exact List.mem_cons_self y ys
    · exact List.mem_cons_of_mem y h1

/-- After batch-max normalization every score is at most 1 (whatever the
sign of the raw scores). -/
theorem normalize_scores_le_one {l : List ℚ} {x : ℚ}
    (hx : x ∈ normalize_scores l) : x ≤ 1 := by
  unfold normalize_scores at hx
  by_cases hM : 0 < listMax l
  · rw [if_pos hM] at hx
    rw [List.mem_map] at hx
    obtain ⟨y, hy, rfl⟩ := hx
    exact (div_le_one hM).mpr (le_listMax hy)
  · rw [if_neg hM] at hx
    exact le_trans (le_trans (le_listMax hx) (not_lt.mp hM)) zero_le_one

/-- If some normalized score is positive, the batch maximum normalizes to
exactly 1, which is in the output. -/
theorem normalize_scores_has_one {l : List ℚ}
    (h : ∃ x ∈ normalize_scores l, 0 < x) : (1:ℚ) ∈ normalize_scores l := by
  obtain ⟨x, hx, hxpos⟩ := h
  unfold normalize_scores at hx ⊢
  by_cases hM : 0 < listMax l
  · rw [if_pos hM] at hx ⊢
    have hne : l ≠ [] := by
      intro he
      rw [he] at hx
      cases hx
    have hdiv : listMax l / listMax l = 1 := div_self (ne_of_gt hM)
    rw [← hdiv]
    exact List.mem_map_of_mem _ (listMax_mem hne)
  · rw [if_neg hM] at hx
    exact absurd hxpos (not_lt.mpr (le_trans (le_listMax hx) (not_lt.mp hM)))

/-- Every output of `_calculate_enhanced_scores` is at most 1. -/
theorem calculate_enhanced_scores_le_one (pp : String → String) (sem : List ℚ)
    (configs : List Config) (q : String) :
    ∀ x ∈ calculate_enhanced_scores pp sem configs q, x ≤ 1 := by
  intro x hx
  unfold calculate_enhanced_scores at hx
  by_cases hq : pp q = ""
  · rw [if_pos hq] at hx
    rw [List.eq_of_mem_replicate hx]
    exact zero_le_one
  · rw [if_neg hq] at hx
    exact normalize_scores_le_one hx

/-- If some output of `_calculate_enhanced_scores` is positive then 1 is
among the outputs. -/
theorem calculate_enhanced_scores_has_one (pp : String → String) (sem : List ℚ)
    (configs : List Config) (q : String)
    (h : ∃ x ∈ calculate_enhanced_scores pp sem configs q, 0 < x) :
    (1:ℚ) ∈ calculate_enhanced_scores pp sem configs q := by
  unfold calculate_enhanced_scores at h ⊢
  by_cases hq : pp q = ""
  · rw [if_pos hq] at h
    obtain ⟨x, hx, hxpos⟩ := h
    rw [List.eq_of_mem_replicate hx] at hxpos
    exact absurd hxpos (lt_irrefl 0)
  · rw [if_neg hq] at h ⊢
    exact normalize_scores_has_one h

/-- Banker's rounding moves a value by at most 1/2 in either direction. -/
theorem pythonRound_bounds (x : ℚ) :
    x - 1/2 ≤ (pythonRound x : ℚ) ∧ (pythonRound x : ℚ) ≤ x + 1/2 := by
  have hf : (⌊x⌋ : ℚ) ≤ x := Int.floor_le x
  have hf2 : x < ⌊x⌋ + 1 := Int.lt_floor_add_one x
  unfold pythonRound
  split_ifs with h1 h2 h3 <;> constructor <;> push_cast <;> linarith

/-- A `getD` value with default 0 is a list member or 0. -/
theorem getD_mem_or_default (l : List ℚ) (i : ℕ) :
    l.getD i 0 ∈ l ∨ l.getD i 0 = 0 := by
  induction l generalizing i with
  | nil => exact Or.inr rfl
  | cons x xs ih =>
    cases i with
    | zero => exact Or.inl (List.mem_cons_self x xs)
    | succ n =>
      rw [List.getD_cons_succ]
      rcases ih n with h | h
      · exact Or.inl (List.mem_cons_of_mem x h)
      · exact Or.inr h

/-- Invariant preservation along the selection walk: any property that holds
of the initial results list and of every `mkResult` built from an index in
the walk with a score clearing the quality threshold holds of all final
results. -/
theorem selectWalk_invariant (configs : List Config) (sims : List ℚ) (jours : ℤ)
    (P : Recommendation → Prop) (idxs : List ℕ)
    (st : List Recommendation × List ComboKey)
    (hstep : ∀ idx ∈ idxs, ¬ sims.getD idx 0 < 15/100 →
      P (mkResult (getCfg configs idx) (sims.getD idx 0) jours))
    (hst : ∀ r ∈ st.1, P r) :
    ∀ r ∈ (idxs.foldl (selectStep configs sims jours) st).1, P r := by
  induction idxs generalizing st with
  | nil => exact hst
  | cons idx rest ih =>
    rw [List.foldl_cons]
    apply ih
    · exact fun j hj hq => hstep j (List.mem_cons_of_mem idx hj) hq
    · simp only [selectStep]
      split_ifs with h1 h2 h3 h4 <;>
        first
          | exact hst
          | (intro r hr
             rcases List.mem_append.mp hr with h | h
             · exact hst r h
             · rw [List.mem_singleton.mp h]
               exact hstep idx (List.mem_cons_self idx rest)
                 ‹¬ sims.getD idx 0 < 15/100›)

/-- When every score is below the quality threshold the selection walk
accepts nothing. -/
theorem runSelect_results_nil (configs : List Config) (sims : List ℚ)
    (jours : ℤ) (idxs : List ℕ) (hlow : ∀ x ∈ sims, x < 15/100) :
    (runSelect configs sims jours idxs).1 = [] := by
  rw [List.eq_nil_iff_forall_not_mem]
  intro r hr
  refine selectWalk_invariant configs sims jours (fun _ => False) idxs ([], [])
    ?_ (fun r hr => absurd hr (List.not_mem_nil r)) r hr
  intro idx _ hq
  rcases getD_mem_or_default sims idx with hm | hm
  · exact hq (hlow _ hm)
  · rw [hm] at hq
    exact hq (by norm_num)

/-- An accepted result (score at or above the 0.15 threshold) always gets a
quality rating between 1 and 5. -/
theorem mkResult_quality_bounds (row : Config) (s : ℚ) (jours : ℤ)
    (hs : 15/100 ≤ s) :
    1 ≤ (mkResult row s jours).quality_rating ∧
      (mkResult row s jours).quality_rating ≤ 5 := by
  have hb := pythonRound_bounds (s * 5 + 1)
  constructor
  · have h1 : (1:ℚ) ≤ (pythonRound (s * 5 + 1) : ℚ) := by linarith [hb.1]
    have h2 : (1:ℤ) ≤ pythonRound (s * 5 + 1) := by exact_mod_cast h1
    simp only [mkResult]
    exact le_min (by norm_num) h2
  · simp only [mkResult]
    exact min_le_left 5 _

/-- Membership in an `insertIdx` result. -/
theorem mem_insertIdx {le : ℕ → ℕ → Bool} {i x : ℕ} {l : List ℕ} :
    x ∈ insertIdx le i l ↔ x = i ∨ x ∈ l := by
  induction l with
  | nil => simp [insertIdx]
  | cons j js ih =>
    simp only [insertIdx]
    split_ifs
    · simp only [List.mem_cons]
    · simp only [List.mem_cons, ih]
      tauto

/-- `insertIdx` permutes the element onto the list. -/
theorem insertIdx_perm (le : ℕ → ℕ → Bool) (i : ℕ) (l : List ℕ) :
    (insertIdx le i l).Perm (i :: l) := by
  induction l with
  | nil => exact List.Perm.refl [i]
  | cons j js ih =>
    simp only [insertIdx]
    split_ifs
    · exact List.Perm.refl _
    · exact (ih.cons j).trans (List.Perm.swap i j js)

/-- `insSort` permutes its input. -/
theorem insSort_perm (le : ℕ → ℕ → Bool) (l : List ℕ) :
    (insSort le l).Perm l := by
  induction l with
  | nil => exact List.Perm.refl []
  | cons i is ih =>
    exact (insertIdx_perm le i (insSort le is)).trans (ih.cons i)

/-- Inserting into a sorted list keeps it sorted, for a total transitive
boolean comparison. -/
theorem pairwise_insertIdx {le : ℕ → ℕ → Bool}
    (htot : ∀ a b, le a b = true ∨ le b a = true)
    (htrans : ∀ a b c, le a b = true → le b c = true → le a c = true)
    {i : ℕ} {l : List ℕ} (hl : l.Pairwise (fun a b => le a b = true)) :
    (insertIdx le i l).Pairwise (fun a b => le a b = true) := by
  induction l with
  | nil => simp [insertIdx]
  | cons j js ih =>
    rcases List.pairwise_cons.mp hl with ⟨hj, hjs⟩
    simp only [insertIdx]
    split_ifs with h
    · refine List.pairwise_cons.mpr ⟨?_, hl⟩
      intro b hb
      rcases List.mem_cons.mp hb with rfl | hb
      · exact h
      · exact htrans i j b h (hj b hb)
    · refine List.pairwise_cons.mpr ⟨?_, ih hjs⟩
      intro b hb
      rcases mem_insertIdx.mp hb with rfl | hb
      · rcases htot b j with hh | hh
        · exact absurd hh h
        · exact hh
      · exact hj b hb

/-- Insertion sort sorts, for a total transitive boolean comparison. -/
theorem pairwise_insSort {le : ℕ → ℕ → Bool}
    (htot : ∀ a b, le a b = true ∨ le b a = true)
    (htrans : ∀ a b c, le a b = true → le b c = true → le a c = true)
    (l : List ℕ) :
    (insSort le l).Pairwise (fun a b => le a b = true) := by
  induction l with
  | nil => exact List.Pairwise.nil
  | cons i is ih => exact pairwise_insertIdx htot htrans ih

/-- The argsort comparison is total. -/
theorem argLe_total (sims : List ℚ) (a b : ℕ) :
    argLe sims a b = true ∨ argLe sims b a = true := by
  unfold argLe
  rcases lt_trichotomy (sims.getD a 0) (sims.getD b 0) with h | h | h
  · exact Or.inl (decide_eq_true (Or.inl h))
  · rcases le_total a b with hab | hab
    · exact Or.inl (decide_eq_true (Or.inr ⟨h, hab⟩))
    · exact Or.inr (decide_eq_true (Or.inr ⟨h.symm, hab⟩))
  · exact Or.inr (decide_eq_true (Or.inl h))

/-- The argsort comparison is transitive. -/
theorem argLe_trans (sims : List ℚ) (a b c : ℕ)
    (h1 : argLe sims a b = true) (h2 : argLe sims b c = true) :
    argLe sims a c = true := by
  unfold argLe at h1 h2 ⊢
  have h1' := of_decide_eq_true h1
  have h2' := of_decide_eq_true h2
  apply decide_eq_true
  rcases h1' with h1' | ⟨he1, hi1⟩ <;> rcases h2' with h2' | ⟨he2, hi2⟩
  · exact Or.inl (h1'.trans h2')
  · exact Or.inl (he2 ▸ h1')
  · exact Or.inl (he1 ▸ h2')
  · exact Or.inr ⟨he1.trans he2, hi1.trans hi2⟩

/-- The argsort output has no duplicate indices. -/
theorem argsort_nodup (sims : List ℚ) : (argsort sims).Nodup :=
  ((insSort_perm (argLe sims) (List.range sims.length)).nodup_iff).mpr
    (List.nodup_range sims.length)

/-- The type step contributes at most 2 to the specificity score. -/
theorem typeSpecOf_le (e : Option String) (w i : Bool) : typeSpecOf e w i ≤ 2 := by
  cases e with
  | none =>
    simp only [typeSpecOf]
    split_ifs <;> omega
  | some t => simp [typeSpecOf]

/-- Budget (≤1) + location (≤1) + type (≤2) specificity is at most 4. -/
theorem spec_sum_le (o1 o2 : Option String) (ts : ℕ) (h : ts ≤ 2) :
    (if o1.isSome then 1 else 0) + (if o2.isSome then 1 else 0) + ts ≤ 4 := by
  split_ifs <;> omega

/-- The specificity score extracted from any query is at most 4. -/
theorem extract_spec_le (pp : String → String) (configs : List Config)
    (q : String) :
    (extract_enhanced_features pp configs q).specificity_score ≤ 4 :=
  spec_sum_le _ _ _ (typeSpecOf_le _ _ _)

/-- Each per-feature boost addend is between 0 and the strength bound 0.7. -/
theorem boost_addend_bounds (o : Option String) (f : String) (bs : ℚ)
    (h0 : 0 ≤ bs) (h1 : bs ≤ 7/10) :
    0 ≤ (match o with | some t => if f = t then bs else 0 | none => 0) ∧
    (match o with | some t => if f = t then bs else 0 | none => 0) ≤ 7/10 := by
  cases o with
  | none => exact ⟨le_refl 0, by norm_num⟩
  | some t =>
    dsimp only
    split_ifs
    · exact ⟨h0, h1⟩
    · exact ⟨le_refl 0, by norm_num⟩

/-- With specificity at most 4, every boost multiplier is in [1, 3.1]. -/
theorem compute_boosts_bounds (e : Features) (configs : List Config)
    (hspec : e.specificity_score ≤ 4) :
    ∀ x ∈ compute_boosts e configs, 1 ≤ x ∧ x ≤ 31/10 := by
  intro x hx
  simp only [compute_boosts, List.mem_map] at hx
  obtain ⟨row, hrow, rfl⟩ := hx
  have h4 : ((e.specificity_score : ℚ)) ≤ 4 := by exact_mod_cast hspec
  have h0 : (0:ℚ) ≤ (e.specificity_score : ℚ) := Nat.cast_nonneg _
  have hbs0 : (0:ℚ) ≤ 3/10 + (e.specificity_score : ℚ) * (1/10) := by linarith
  have hbs1 : 3/10 + (e.specificity_score : ℚ) * (1/10) ≤ 7/10 := by linarith
  have ht := boost_addend_bounds e.type row.type _ hbs0 hbs1
  have hb := boost_addend_bounds e.budget row.budget _ hbs0 hbs1
  have hl := boost_addend_bounds e.lieu row.lieu _ hbs0 hbs1
  constructor <;> linarith [ht.1, ht.2, hb.1, hb.2, hl.1, hl.2]

/-- C1: the claim says the final recommendation list never contains two
accepted results with identical (type, budget, lieu) keys.  The code violates
it: on a catalog whose two rows share the key (pub, low, studio) and a query
scoring both above the threshold, both rows are accepted — the seen set
stores the key only once, so the second exact duplicate counts as a single
similar key and passes the `similar_count >= 2` check, contradicting the
source's own "avoid exact duplicates" comment. -/
theorem c1_exact_duplicate_keys_in_output :
    ((get_recommendations id [1, 9/10] false [] [cfgA, cfgB] "pub" 1).recommendations.map
        (fun r => (r.type, r.budget, r.lieu))) =
      [("pub", "low", "studio"), ("pub", "low", "studio")] ∧
    (get_recommendations id [1, 9/10] false [] [cfgA, cfgB]
      "pub" 1).recommendations.length = 2 := by
  with_unfolding_all decide

/-- C2 counterexample: a candidate that passes the diversity check but is
skipped for quality (score 0.1 < 0.15) still adds its key to the seen set:
from the empty state, processing index 0 leaves the results empty while the
seen set becomes nonempty — the claim that the seen set is unchanged after a
quality-skipped candidate is false. -/
theorem c2_counterexample_seen_set_grows :
    (selectStep [cfgA] [1/10] 1 ([], []) 0).1 = [] ∧
    (selectStep [cfgA] [1/10] 1 ([], []) 0).2 ≠ [] := by
  with_unfolding_all decide

/-- C2 (amended): in the Selector walk, a candidate's key is added to the
seen set as soon as it passes the diversity check (with the result list not
yet full), before the quality-threshold test; a candidate skipped because
`finalScore < 0.15` therefore leaves the results unchanged but still inserts
its key into the seen set. -/
theorem c2_amended_key_added_before_quality (configs : List Config)
    (sims : List ℚ) (jours : ℤ) (st : List Recommendation × List ComboKey)
    (idx : ℕ) (hfull : st.1.length < 5)
    (hdiv : (st.2.filter
      (fun seen => 2 ≤ sharedFields (comboKey (getCfg configs idx)) seen)).length < 2)
    (hq : sims.getD idx 0 < 15/100) :
    selectStep configs sims jours st idx =
      (st.1, if comboKey (getCfg configs idx) ∈ st.2 then st.2
        else comboKey (getCfg configs idx) :: st.2) := by
  simp only [selectStep]
  rw [if_neg (not_le.mpr hfull), if_neg (not_le.mpr hdiv), if_pos hq]

/-- C2 witness: concrete instance of the amended claim — the quality-skipped
candidate's key lands in the seen set while no result is emitted. -/
theorem c2_witness_key_added :
    selectStep [cfgA] [1/10] 1 ([], []) 0 = ([], [("pub", "low", "studio")]) := by
  have h := c2_amended_key_added_before_quality [cfgA] [1/10] 1 ([], []) 0
    (by decide) (by decide) (by with_unfolding_all decide)
  rw [h]
  with_unfolding_all decide

/-- C3 counterexample: with a negative semantic similarity (cosine similarity
can be negative) the single raw score is -12/25: it is nonzero, the output
equals it (the batch max is not positive, so no normalization happens), the
output lies outside [0, 1], and no candidate scores exactly 1.0. -/
theorem c3_counterexample_negative_score :
    calculate_enhanced_scores id [-1] [cfgA] "zzz" = [-12/25] ∧
    raw_scores id [-1] [cfgA] "zzz" = [-12/25] ∧
    ¬ ((0:ℚ) ≤ -12/25) ∧
    (1:ℚ) ∉ calculate_enhanced_scores id [-1] [cfgA] "zzz" := by
  with_unfolding_all decide

/-- C3 (amended): every ScoreCombiner output is at most 1, and whenever some
candidate's final score is positive at least one candidate scores exactly
1.0; outputs can however be negative (the base score 0.4*semantic +
0.3*lexical is negative when the semantic similarity is negative enough), so
containment in [0, 1] does not hold in general. -/
theorem c3_amended_normalization_range (pp : String → String) (sem : List ℚ)
    (configs : List Config) (q : String) :
    (∀ x ∈ calculate_enhanced_scores pp sem configs q, x ≤ 1) ∧
    ((∃ x ∈ calculate_enhanced_scores pp sem configs q, 0 < x) →
      (1:ℚ) ∈ calculate_enhanced_scores pp sem configs q) :=
  ⟨calculate_enhanced_scores_le_one pp sem configs q,
   calculate_enhanced_scores_has_one pp sem configs q⟩

/-- C3 witness: both parts of the amended claim at concrete inputs — a
concrete output value is at most 1, and on a catalog with a positive score
the value 1.0 is attained. -/
theorem c3_witness_one_attained :
    ((-12/25 : ℚ)) ≤ 1 ∧ (1:ℚ) ∈ calculate_enhanced_scores id [1] [cfgA] "pub" :=
  ⟨(c3_amended_normalization_range id [-1] [cfgA] "zzz").1 (-12/25)
      (by with_unfolding_all decide),
   (c3_amended_normalization_range id [1] [cfgA] "pub").2
      ⟨1, by with_unfolding_all decide, by norm_num⟩⟩

/-- C4 counterexample: when internal score computation errors, the fallback
draws scores from the PRNG (`np.random.uniform(0.1, 0.3, n)`), so two runs
with identical query, duration, catalog and embeddings — differing only in
the ambient random state, both draws being valid uniform(0.1, 0.3) samples —
return different recommendation lists: the pipeline is not a pure function of
its inputs on the error path. -/
theorem c4_counterexample_random_fallback :
    ((1:ℚ)/10 ≤ 1/5 ∧ (1:ℚ)/5 < 3/10) ∧
    ((1:ℚ)/10 ≤ 1/4 ∧ (1:ℚ)/4 < 3/10) ∧
    get_recommendations id [1] true [1/5] [cfgA] "pub" 1 ≠
      get_recommendations id [1] true [1/4] [cfgA] "pub" 1 := by
  with_unfolding_all decide

/-- C4 (amended): when score computation succeeds (no internal exception),
the pipeline is a deterministic pure function of query, duration, catalog and
semantic scores — its output does not depend on the PRNG stream, so two runs
with the same inputs coincide. -/
theorem c4_amended_deterministic_on_success (pp : String → String)
    (sem : List ℚ) (rng rng' : List ℚ) (configs : List Config) (q : String)
    (jours : ℤ) :
    get_recommendations pp sem false rng configs q jours =
      get_recommendations pp sem false rng' configs q jours := rfl

/-- C5 counterexample: two candidates with equal finalScore 0.5.  The claim
says the one earlier in catalog order (index 0) appears earlier in the sorted
walk; the code's `argsort()[::-1]` puts index 1 first (a two-element array is
in numpy's insertion-sort regime, where `argsort` of two equal values
verifiably returns `[0, 1]`, reversed to `[1, 0]`). -/
theorem c5_counterexample_ties_reversed :
    topIndices [(1:ℚ)/2, 1/2] = [1, 0] ∧
    ¬ ((topIndices [(1:ℚ)/2, 1/2]).indexOf 0 <
        (topIndices [(1:ℚ)/2, 1/2]).indexOf 1) := by
  with_unfolding_all decide

/-- C5 (amended): the Ranker walk is sorted by finalScore descending —
whenever candidate `a` precedes candidate `b` in the walk, `a`'s score is at
least `b`'s — but the stable-ties clause of the claim does not hold: ties do
not keep catalog order (see the counterexample), and numpy's default argsort
guarantees no particular tie order at all.  This theorem asserts only the
score-descending property, which holds under every tie resolution of the
comparison, so it does not depend on the model's ascending-index
determinization in `argLe`. -/
theorem c5_amended_sorted_descending (sims : List ℚ) :
    (topIndices sims).Pairwise (fun a b => sims.getD b 0 ≤ sims.getD a 0) := by
  have hpair : (argsort sims).Pairwise (fun a b => argLe sims a b = true) :=
    pairwise_insSort (argLe_total sims) (argLe_trans sims) (List.range sims.length)
  have hrev : (topIndices sims).Pairwise (fun a b => argLe sims b a = true) := by
    unfold topIndices
    exact List.pairwise_reverse.mpr hpair
  refine hrev.imp ?_
  intro a b hle
  rcases of_decide_eq_true hle with h | ⟨he, _⟩
  · exact le_of_lt h
  · exact le_of_eq he

/-- C6: a query whose stripped text has fewer than 3 characters produces the
structured failure dict (success false, "Query too short" message, empty
recommendations, no other keys) regardless of scores, error state or random
stream — scoring is never reached and nothing is raised. -/
theorem c6_short_query_failure (pp : String → String) (sem : List ℚ)
    (err : Bool) (rng : List ℚ) (configs : List Config) (q : String)
    (jours : ℤ) (h : (pyStrip q).length < 3) :
    get_recommendations pp sem err rng configs q jours =
      { success := false,
        message := "Query too short. Please be more specific.",
        recommendations := [] } := by
  unfold get_recommendations
  rw [if_pos h]

/-- C6 witness: the spec's own example, the 2-character query "ab". -/
theorem c6_witness_ab :
    (pyStrip "ab").length < 3 ∧
    get_recommendations id [] false [] [] "ab" 1 =
      { success := false,
        message := "Query too short. Please be more specific.",
        recommendations := [] } :=
  ⟨by with_unfolding_all decide,
   c6_short_query_failure id [] false [] [] "ab" 1 (by with_unfolding_all decide)⟩

/-- C7 counterexample: a valid query ("pub", length 3) on a one-row catalog
where the only candidate scores below the quality threshold: every score is
below 0.15, yet the response has `success = false` — the degenerate result is
reported as a failure, not as the successful empty-result response the claim
asserts (and the HTTP handler turns `success = false` into a 400 error). -/
theorem c7_counterexample_empty_reported_failure :
    (¬ (pyStrip "pub").length < 3) ∧
    (∀ x ∈ pipelineSims id [-1] false [] [cfgA] "pub", x < 15/100) ∧
    (get_recommendations id [-1] false [] [cfgA] "pub" 1).success = false ∧
    (get_recommendations id [-1] false [] [cfgA] "pub" 1).message =
      "No close matches found" ∧
    (get_recommendations id [-1] false [] [cfgA] "pub" 1).recommendations = [] := by
  with_unfolding_all decide

/-- C7 (amended): for every valid query (length ≥ 3) where zero candidates
clear the quality threshold, the pipeline returns `success = false` with the
explanatory message "No close matches found", an empty recommendations list
and model confidence 0 — the degenerate result is reported as a failure
response, which the HTTP layer forwards as an error. -/
theorem c7_amended_empty_is_failure (pp : String → String) (sem : List ℚ)
    (err : Bool) (rng : List ℚ) (configs : List Config) (q : String)
    (jours : ℤ) (hq : ¬ (pyStrip q).length < 3)
    (hlow : ∀ x ∈ pipelineSims pp sem err rng configs q, x < 15/100) :
    (get_recommendations pp sem err rng configs q jours).success = false ∧
    (get_recommendations pp sem err rng configs q jours).message =
      "No close matches found" ∧
    (get_recommendations pp sem err rng configs q jours).recommendations = [] ∧
    (get_recommendations pp sem err rng configs q jours).model_confidence =
      some 0 := by
  have hres := runSelect_results_nil configs
    (pipelineSims pp sem err rng configs q) jours
    (topIndices (pipelineSims pp sem err rng configs q)) hlow
  simp only [get_recommendations, if_neg hq, hres]
  norm_num

/-- C7 witness: the amended claim at a concrete degenerate input. -/
theorem c7_witness_concrete :
    (get_recommendations id [-1] false [] [cfgB] "pub" 1).success = false ∧
    (get_recommendations id [-1] false [] [cfgB] "pub" 1).message =
      "No close matches found" ∧
    (get_recommendations id [-1] false [] [cfgB] "pub" 1).recommendations = [] ∧
    (get_recommendations id [-1] false [] [cfgB] "pub" 1).model_confidence =
      some 0 :=
  c7_amended_empty_is_failure id [-1] false [] [cfgB] "pub" 1
    (by with_unfolding_all decide) (by with_unfolding_all decide)

/-- C8: for every accepted Recommendation and durationDays in {1, 7, 30},
the reported total price equals the reported per-day price times the
duration, exactly, in integer arithmetic (it holds by construction of the
result dict for every accepted candidate). -/
theorem c8_total_price_exact (pp : String → String) (sem : List ℚ)
    (err : Bool) (rng : List ℚ) (configs : List Config) (q : String)
    (jours : ℤ) (_hj : jours = 1 ∨ jours = 7 ∨ jours = 30) :
    ∀ r ∈ (get_recommendations pp sem err rng configs q jours).recommendations,
      r.prix_total = r.prix_jour * jours := by
  intro r hr
  by_cases h : (pyStrip q).length < 3
  · simp only [get_recommendations, if_pos h] at hr
    cases hr
  · simp only [get_recommendations, if_neg h, runSelect] at hr
    exact selectWalk_invariant configs _ jours
      (fun r => r.prix_total = r.prix_jour * jours) _ ([], [])
      (fun idx _ _ => rfl) (fun r hr => absurd hr (List.not_mem_nil r)) r hr

/-- C8 witness: a one-week rental on a concrete run with accepted results. -/
theorem c8_witness_week :
    (mkResult cfgA 1 7).prix_total = (mkResult cfgA 1 7).prix_jour * 7 :=
  c8_total_price_exact id [1, 9/10] false [] [cfgA, cfgB] "pub" 7
    (Or.inr (Or.inl rfl)) (mkResult cfgA 1 7) (by with_unfolding_all decide)

/-- C9: every accepted Recommendation carries a finalScore s at or above the
0.15 threshold, its qualityRating equals `min(5, round(s*5 + 1))`, and that
rating is an integer between 1 and 5 inclusive. -/
theorem c9_quality_rating_range (pp : String → String) (sem : List ℚ)
    (err : Bool) (rng : List ℚ) (configs : List Config) (q : String)
    (jours : ℤ) :
    ∀ r ∈ (get_recommendations pp sem err rng configs q jours).recommendations,
      ∃ s : ℚ, 15/100 ≤ s ∧ r.score = round3 s ∧
        r.quality_rating = min 5 (pythonRound (s * 5 + 1)) ∧
        1 ≤ r.quality_rating ∧ r.quality_rating ≤ 5 := by
  intro r hr
  by_cases h : (pyStrip q).length < 3
  · simp only [get_recommendations, if_pos h] at hr
    cases hr
  · simp only [get_recommendations, if_neg h, runSelect] at hr
    refine selectWalk_invariant configs _ jours
      (fun r => ∃ s : ℚ, 15/100 ≤ s ∧ r.score = round3 s ∧
        r.quality_rating = min 5 (pythonRound (s * 5 + 1)) ∧
        1 ≤ r.quality_rating ∧ r.quality_rating ≤ 5) _ ([], [])
      ?_ (fun r hr => absurd hr (List.not_mem_nil r)) r hr
    intro idx _ hq
    have hs := not_lt.mp hq
    have hb := mkResult_quality_bounds (getCfg configs idx) _ jours hs
    exact ⟨_, hs, rfl, rfl, hb.1, hb.2⟩

/-- C9 witness: the accepted top result of a concrete run. -/
theorem c9_witness_concrete :
    ∃ s : ℚ, 15/100 ≤ s ∧ (mkResult cfgA 1 1).score = round3 s ∧
      (mkResult cfgA 1 1).quality_rating = min 5 (pythonRound (s * 5 + 1)) ∧
      1 ≤ (mkResult cfgA 1 1).quality_rating ∧
      (mkResult cfgA 1 1).quality_rating ≤ 5 :=
  c9_quality_rating_range id [1] false [] [cfgA] "pub" 1 (mkResult cfgA 1 1)
    (by with_unfolding_all decide)

/-- C10: for every query (and any preprocessing outcome), the extracted
specificity score is at most 4 (+1 budget, +1 location, +2 exact type or +1
fallback, each once), hence the boost strength 0.3 + 0.1*specificity lies in
[0.3, 0.7] and every candidate's boost multiplier lies in [1.0, 3.1]. -/
theorem c10_specificity_boost_bounds (pp : String → String)
    (configs : List Config) (q : String) :
    (extract_enhanced_features pp configs q).specificity_score ≤ 4 ∧
    ((3:ℚ)/10 ≤ 3/10 +
        ((extract_enhanced_features pp configs q).specificity_score : ℚ) * (1/10) ∧
      3/10 + ((extract_enhanced_features pp configs q).specificity_score : ℚ)
        * (1/10) ≤ 7/10) ∧
    ∀ x ∈ compute_boosts (extract_enhanced_features pp configs q) configs,
      1 ≤ x ∧ x ≤ 31/10 := by
  have hs := extract_spec_le pp configs q
  have h4 : (((extract_enhanced_features pp configs q).specificity_score : ℚ)) ≤ 4 := by
    exact_mod_cast hs
  have h0 : (0:ℚ) ≤ ((extract_enhanced_features pp configs q).specificity_score : ℚ) :=
    Nat.cast_nonneg _
  exact ⟨hs, ⟨by linarith, by linarith⟩, compute_boosts_bounds _ configs hs⟩

/-- C10 witness: the boost multiplier 1.5 of a concrete exact-type match. -/
theorem c10_witness_concrete :
    (1:ℚ) ≤ 3/2 ∧ (3/2:ℚ) ≤ 31/10 :=
  (c10_specificity_boost_bounds id [cfgA] "pub").2.2 (3/2)
    (by with_unfolding_all decide)
